import Mathlib

/-
  Shallow embedding of the order pricing pipeline of the Vendure repository.

  Sources embedded:
  * packages/core/src/entity/order-item/order-item.entity.ts   (OrderItem)
  * server/src/entity/order-line/order-line.entity.ts          (OrderLine)
  * packages/core/src/config/shipping-method/default-shipping-calculator.ts
  * server/src/entity/shipping-method/shipping-method.entity.ts (ShippingMethod, src/unnamed/part_024)
  * server/src/config/order-merge-strategy/use-existing-strategy.ts
  * core/src/service/services/payment-method.service.ts (PaymentMethodService, src/unnamed/part_008)

  Monetary values are JavaScript numbers; where the source only ever holds
  integers we embed them as Int, and where a division can produce a
  fractional number we compute in Rat.  JavaScript Math.round is embedded
  as jround below (half-up toward positive infinity).
-/

namespace Vendure

/-- Rounding as performed by JavaScript Math.round: floor of x + 1/2
(rounds halves toward positive infinity, also for negative inputs). -/
def jround (q : ℚ) : ℤ := ⌊q + 1/2⌋

/-- AdjustmentType enum from shared/generated-types. -/
inductive AdjustmentType where
  | PROMOTION
  | TAX
  | SHIPPING
deriving DecidableEq, Repr

/-- Adjustment value object: { adjustmentSource, amount, description, type }.
Amounts are integers in the minor currency unit. -/
structure Adjustment where
  adjustmentSource : String
  amount : ℤ
  description : String
  type : AdjustmentType
deriving DecidableEq, Repr

/-- OrderItem entity (packages/core/src/entity/order-item/order-item.entity.ts).
The stored columns; the computed getters of the class follow as functions. -/
structure OrderItem where
  unitPrice : ℤ
  unitPriceIncludesTax : Bool
  taxRate : ℚ
  pendingAdjustments : List Adjustment
  fulfillmentId : Option ℕ := none
  refundId : Option ℕ := none
  cancellationId : Option ℕ := none
deriving DecidableEq, Repr

/-- Getter cancelled: `!!this.cancellationId`. -/
def OrderItem.cancelled (i : OrderItem) : Bool :=
  i.cancellationId.isSome

/-- Getter unitPriceWithTax (order-item.entity.ts lines 59-66). -/
def OrderItem.unitPriceWithTax (i : OrderItem) : ℤ :=
  if i.unitPriceIncludesTax then
    i.unitPrice
  else
    jround ((i.unitPrice : ℚ) * ((100 + i.taxRate) / 100))

/-- Getter adjustments (order-item.entity.ts lines 71-89): when the unit
price is tax-exclusive, PROMOTION adjustments are mapped to tax-inclusive
display amounts; all other adjustments are returned as stored.  The read is
pure: the stored pendingAdjustments list is not written. -/
def OrderItem.adjustments (i : OrderItem) : List Adjustment :=
  if i.unitPriceIncludesTax then
    i.pendingAdjustments
  else
    i.pendingAdjustments.map fun a =>
      if a.type = AdjustmentType.PROMOTION then
        { a with amount := jround ((a.amount : ℚ) * ((100 + i.taxRate) / 100)) }
      else
        a

/-- Getter promotionAdjustmentsTotal (order-item.entity.ts lines 113-117):
filter to PROMOTION and reduce summing the amounts from 0. -/
def OrderItem.promotionAdjustmentsTotal (i : OrderItem) : ℤ :=
  (i.pendingAdjustments.filter fun a => a.type = AdjustmentType.PROMOTION).foldl
    (fun total a => total + a.amount) 0

/-- Getter unitPriceWithPromotions (order-item.entity.ts lines 119-121). -/
def OrderItem.unitPriceWithPromotions (i : OrderItem) : ℤ :=
  i.unitPrice + i.promotionAdjustmentsTotal

/-- Getter unitTax (order-item.entity.ts lines 102-111). -/
def OrderItem.unitTax (i : OrderItem) : ℤ :=
  if i.unitPriceIncludesTax then
    jround ((i.unitPriceWithPromotions : ℚ) -
      (i.unitPriceWithPromotions : ℚ) / ((100 + i.taxRate) / 100))
  else
    match i.adjustments.find? (fun a => a.type = AdjustmentType.TAX) with
    | some a => a.amount
    | none => 0

/-- Getter unitPriceWithPromotionsAndTax (order-item.entity.ts lines 94-100). -/
def OrderItem.unitPriceWithPromotionsAndTax (i : OrderItem) : ℤ :=
  if i.unitPriceIncludesTax then
    i.unitPriceWithPromotions
  else
    i.unitPriceWithPromotions + i.unitTax

/-- Method clearAdjustments (order-item.entity.ts lines 123-131).  The
in-place mutation of the entity is embedded as a functional update of the
pendingAdjustments field; every other field is carried over unchanged. -/
def OrderItem.clearAdjustments (t : Option AdjustmentType) (i : OrderItem) : OrderItem :=
  match t with
  | none => { i with pendingAdjustments := [] }
  | some ty => { i with pendingAdjustments := i.pendingAdjustments.filter fun a => a.type ≠ ty }

/-- OrderLine entity (server/src/entity/order-line/order-line.entity.ts):
the fields relevant to the pricing pipeline. -/
structure OrderLine where
  items : List OrderItem
deriving DecidableEq, Repr

/-- Method clearAdjustments on OrderLine (order-line.entity.ts lines 93-95):
forEach item, item.clearAdjustments(type).  The items array itself is kept;
each existing item is updated in place, no item object is regenerated. -/
def OrderLine.clearAdjustments (t : Option AdjustmentType) (l : OrderLine) : OrderLine :=
  { l with items := l.items.map (OrderItem.clearAdjustments t) }

/-- ConfigArgType: the argument types declared by a PaymentMethodHandler
(PaymentMethodArgType in config/payment-method/payment-method-handler). -/
inductive ConfigArgType where
  | string
  | boolean
  | int
deriving DecidableEq, Repr

/-- ConfigArg from the generated types: { name, type, value } with the
value stored as a string. -/
structure ConfigArg where
  name : String
  type : ConfigArgType
  value : String
deriving DecidableEq, Repr

/-- PaymentMethodHandler: a registered handler code with its declared
arguments; the args object is embedded as its list of entries in
declaration order (the order Object.entries iterates). -/
structure PaymentMethodHandler where
  code : String
  args : List (String × ConfigArgType)
deriving DecidableEq, Repr

/-- getDefaultValue (payment-method.service.ts lines 222-234,
src/unnamed/part_008): the default serialized value for each declared
argument type. -/
def getDefaultValue : ConfigArgType → String
  | ConfigArgType.string => ""
  | ConfigArgType.boolean => "false"
  | ConfigArgType.int => "0"

/-- buildConfigArgsArray (payment-method.service.ts lines 204-220,
src/unnamed/part_008).  For each declared argument name with no entry in
existingConfigArgs a new entry with the default value of its type is
pushed; the source then filters THAT freshly built list by membership of
its names in handler.args (line 218), not existingConfigArgs, and returns
the stored entries followed by the new ones. -/
def buildConfigArgsArray (handler : PaymentMethodHandler)
    (existingConfigArgs : List ConfigArg) : List ConfigArg :=
  let configArgs : List ConfigArg :=
    handler.args.foldl
      (fun acc nd =>
        if (existingConfigArgs.find? fun ca => ca.name = nd.1).isSome then acc
        else acc ++ [{ name := nd.1, type := nd.2, value := getDefaultValue nd.2 }])
      []
  let configArgs := configArgs.filter fun ca =>
    (handler.args.find? fun nd => nd.1 = ca.name).isSome
  existingConfigArgs ++ configArgs

/-- Order: for the shipping and merge claims only the list of lines is
read by the embedded operations. -/
structure Order where
  lines : List OrderLine
deriving DecidableEq, Repr

/-- ShippingCalculator of the server/src configuration era: calculate
produces a single integer amount, used directly as the adjustment amount
(shipping-method.entity.ts line 52, src/unnamed/part_024). -/
structure ShippingCalculator where
  code : String
  calculate : Order → List ConfigArg → ℤ

/-- ShippingEligibilityChecker of the server/src configuration era. -/
structure ShippingEligibilityChecker where
  code : String
  check : Order → List ConfigArg → Bool

/-- ConfigurableOperation as stored on an entity column: { code, args }. -/
structure ConfigurableOperation where
  code : String
  args : List ConfigArg
deriving DecidableEq, Repr

/-- Registry built in the ShippingMethod constructor
(shipping-method.entity.ts lines 31-35): reduce into an object keyed by
code, so a later entry with the same code overwrites an earlier one. -/
def buildRegistry {α : Type} (code : α → String) (ops : List α) (c : String) : Option α :=
  ops.foldl (fun acc o => if code o = c then some o else acc) none

/-- ShippingMethod entity (shipping-method.entity.ts, src/unnamed/part_024):
stored columns plus the id of the AdjustmentSource base entity. -/
structure ShippingMethod where
  id : ℕ
  code : String
  description : String
  checker : ConfigurableOperation
  calculator : ConfigurableOperation

/-- Source id of an AdjustmentSource: a string of the shape
EntityType:id used to trace an adjustment back to its origin. -/
def ShippingMethod.getSourceId (m : ShippingMethod) : String :=
  "ShippingMethod:" ++ toString m.id

/-- ShippingError: the result of apply is wrapped in Except so that a
thrown JavaScript error would be visible as Except.error; the body of
ShippingMethod.apply contains no throw, so every branch below produces
Except.ok. -/
inductive ShippingError where
  | unrecognizedOperation (code : String)
deriving DecidableEq, Repr

/-- ShippingMethod.apply (shipping-method.entity.ts lines 49-60,
src/unnamed/part_024): look the stored calculator code up in the registry;
when found, produce a SHIPPING adjustment carrying the calculated amount;
when not found, fall through and return undefined (Except.ok none). -/
def ShippingMethod.apply (calculators : List ShippingCalculator)
    (m : ShippingMethod) (order : Order) : Except ShippingError (Option Adjustment) :=
  match buildRegistry ShippingCalculator.code calculators m.calculator.code with
  | some calculator =>
      Except.ok (some
        { amount := calculator.calculate order m.calculator.args
          type := AdjustmentType.SHIPPING
          description := m.description
          adjustmentSource := m.getSourceId })
  | none => Except.ok none

/-- ShippingMethod.test (shipping-method.entity.ts lines 62-69,
src/unnamed/part_024): the verdict of the registered checker, or false
when the stored checker code has no registered checker. -/
def ShippingMethod.test (checkers : List ShippingEligibilityChecker)
    (m : ShippingMethod) (order : Order) : Bool :=
  match buildRegistry ShippingEligibilityChecker.code checkers m.checker.code with
  | some checker => checker.check order m.checker.args
  | none => false

/-- ShippingCalculationResult of the packages/core configuration era:
{ price, priceWithTax }.  The fields are JavaScript numbers; they are
embedded as rationals so that a missing rounding step stays observable. -/
structure ShippingCalculationResult where
  price : ℚ
  priceWithTax : ℚ
deriving DecidableEq, Repr

/-- defaultShippingCalculator calculate function
(default-shipping-calculator.ts lines 20-22): price is the rate argument
unchanged and priceWithTax is rate * ((100 + taxRate) / 100), with no
rounding applied.  Both declared args are of type int. -/
def defaultShippingCalculatorCalculate (order : Order) (rate taxRate : ℤ) :
    ShippingCalculationResult :=
  { price := (rate : ℚ), priceWithTax := (rate : ℚ) * ((100 + (taxRate : ℚ)) / 100) }

/-- UseExistingStrategy.merge (use-existing-strategy.ts lines 12-16):
returns existingOrder.lines.slice().  An absent (undefined) order is
embedded as none; when existingOrder is absent the property access
existingOrder.lines throws a TypeError, embedded as the none result.  The
function reads the orders and copies the line list; neither order is
mutated and nothing is persisted. -/
def UseExistingStrategy.merge (guestOrder existingOrder : Option Order) :
    Option (List OrderLine) :=
  match existingOrder with
  | some o => some o.lines
  | none => none

/-- Rounding of an integer quotient as JavaScript Math.round(a / b) for a
positive divisor b: half-up, computed with floor division so that the
model stays executable on integers. -/
def roundDiv (a b : ℤ) : ℤ := Int.fdiv (2 * a + b) (2 * b)

namespace CouponModel

/-- Modelled from the spec: the Promotion record of section 3 together
with the shape used by the coupon e2e tests (src/unnamed/part_002); the
OrderService and PromotionService code implementing coupon application is
not under src, only its e2e tests are.  A promotion carries an enabled
flag, an optional coupon code, a validity window, an optional per-customer
usage limit, an optional minimum-order-amount condition and a single
order-percentage discount action. -/
structure Promotion where
  id : ℕ
  name : String
  enabled : Bool
  couponCode : Option String
  startsAt : Option ℤ
  endsAt : Option ℤ
  perCustomerUsageLimit : Option ℕ
  minimumOrderAmount : Option ℤ
  discountPercent : ℤ
deriving DecidableEq, Repr

/-- History entry types recorded for coupon application and removal. -/
inductive HistoryEntryType where
  | ORDER_COUPON_APPLIED
  | ORDER_COUPON_REMOVED
deriving DecidableEq, Repr

/-- History entry of an order. -/
structure HistoryEntry where
  type : HistoryEntryType
  couponCode : String
deriving DecidableEq, Repr

/-- Modelled from the spec: the order state read and written by the coupon
operations: the pre-discount subTotal, the applied coupon codes, the
identified customer (none while anonymous), the attached adjustments and
the order history. -/
structure Order where
  subTotal : ℤ
  couponCodes : List String
  customer : Option String
  adjustments : List Vendure.Adjustment
  history : List HistoryEntry
deriving DecidableEq, Repr

/-- Total of the order: subTotal plus the sum of the adjustment amounts
(discount amounts are negative). -/
def Order.total (o : Order) : ℤ :=
  o.subTotal + (o.adjustments.map Vendure.Adjustment.amount).sum

/-- a completed (non-active) order, as counted by the per-customer usage
limit check. -/
structure CompletedOrder where
  customer : String
  couponCodes : List String
deriving DecidableEq, Repr

/-- Environment of the coupon operations: the configured promotions, the
current time and the completed orders consulted by the usage-limit check. -/
structure Env where
  promotions : List Promotion
  now : ℤ
  completedOrders : List CompletedOrder
deriving DecidableEq, Repr

/-- Modelled from the spec: the number of completed orders of the given
customer that consumed the given coupon code (section 4.3 step 2). -/
def usageCount (env : Env) (customer code : String) : ℕ :=
  (env.completedOrders.filter fun c =>
    decide (c.customer = customer) && c.couponCodes.contains code).length

/-- Modelled from the spec: a promotion is within its validity window when
startsAt has passed (or is unset) and endsAt has not been reached (or is
unset). -/
def withinWindow (now : ℤ) (p : Promotion) : Bool :=
  (match p.startsAt with
   | none => true
   | some s => decide (s ≤ now)) &&
  (match p.endsAt with
   | none => true
   | some e => decide (now < e))

/-- Modelled from the spec: the per-customer usage limit is exceeded when
the promotion is coupon-gated with a limit, the order has an identified
customer, and that customer has at least limit completed orders consuming
the code; with no limit, no coupon or no identified customer it is not. -/
def usageExceeded (env : Env) (customer : Option String) (p : Promotion) : Bool :=
  match p.perCustomerUsageLimit, p.couponCode, customer with
  | some limit, some code, some cust => decide (limit ≤ usageCount env cust code)
  | _, _, _ => false

/-- Modelled from the spec: all conditions of the promotion hold; the
model carries the minimum-order-amount condition of the default condition
set. -/
def conditionsSatisfied (subTotal : ℤ) (p : Promotion) : Bool :=
  match p.minimumOrderAmount with
  | none => true
  | some m => decide (m ≤ subTotal)

/-- Modelled from the spec: promotion selection (section 4.3 steps 1-3):
enabled, within the window, coupon-less or gated on an applied code, usage
limit not exceeded, and all conditions true. -/
def promotionEligible (env : Env) (subTotal : ℤ) (couponCodes : List String)
    (customer : Option String) (p : Promotion) : Bool :=
  p.enabled && withinWindow env.now p &&
  (match p.couponCode with
   | none => true
   | some c => couponCodes.contains c) &&
  !usageExceeded env customer p &&
  conditionsSatisfied subTotal p

/-- Modelled from the spec: the PROMOTION adjustment produced by the
order-percentage discount action of a promotion: a negative rounded
percentage of the subTotal, tagged with the source id Promotion:id. -/
def promotionAdjustment (subTotal : ℤ) (p : Promotion) : Vendure.Adjustment :=
  { adjustmentSource := "Promotion:" ++ toString p.id
    amount := -Vendure.roundDiv (subTotal * p.discountPercent) 100
    description := p.name
    type := Vendure.AdjustmentType.PROMOTION }

/-- Modelled from the spec: the adjustments regenerated by a recompute
pass, reading only the subTotal, the applied coupon codes and the customer
identity. -/
def computeAdjustments (env : Env) (subTotal : ℤ) (couponCodes : List String)
    (customer : Option String) : List Vendure.Adjustment :=
  (env.promotions.filter (promotionEligible env subTotal couponCodes customer)).map
    (promotionAdjustment subTotal)

/-- Modelled from the spec: the Order Calculator recompute pass of section
4.2: clear the promotion adjustments and regenerate them from the eligible
promotions; it rewrites only the adjustments of the order. -/
def recompute (env : Env) (o : Order) : Order :=
  { o with adjustments := computeAdjustments env o.subTotal o.couponCodes o.customer }

/-- User-facing coupon errors of section 4.3. -/
inductive CouponError where
  | notValid (code : String)
  | hasExpired (code : String)
  | usageLimitExceeded (code : String)
deriving DecidableEq, Repr

/-- Modelled from the spec: applyCouponCode (sections 4.3 and 8; the
implementing service is not under src, only its e2e tests in
src/unnamed/part_002).  A code matching no promotion errors not-valid; a
code whose promotion validity window has ended errors has-expired; a code
whose per-customer usage limit is already met for the identified customer
errors with the usage limit; an accepted code already present leaves
couponCodes and history unchanged (deduplication) and recomputes; a new
accepted code is appended, a history entry is recorded and the order is
recomputed. -/
def applyCouponCode (env : Env) (o : Order) (code : String) :
    Except CouponError Order :=
  match env.promotions.find? (fun p => p.couponCode = some code) with
  | none => Except.error (CouponError.notValid code)
  | some p =>
    if (match p.endsAt with
        | some e => decide (e ≤ env.now)
        | none => false) then
      Except.error (CouponError.hasExpired code)
    else if usageExceeded env o.customer p then
      Except.error (CouponError.usageLimitExceeded code)
    else if o.couponCodes.contains code then
      Except.ok (recompute env o)
    else
      Except.ok (recompute env
        { o with
          couponCodes := o.couponCodes ++ [code]
          history := o.history ++
            [{ type := HistoryEntryType.ORDER_COUPON_APPLIED, couponCode := code }] })

/-- Modelled from the spec: removeCouponCode (sections 4.3 and 8):
removing a code that is not applied is a no-op that does not alter the
order or its history; removing an applied code drops it from couponCodes,
records a history entry and recomputes, which strips the adjustments of
the promotion gated on that code. -/
def removeCouponCode (env : Env) (o : Order) (code : String) : Order :=
  if o.couponCodes.contains code then
    recompute env
      { o with
        couponCodes := o.couponCodes.filter fun c => decide (c ≠ code)
        history := o.history ++
          [{ type := HistoryEntryType.ORDER_COUPON_REMOVED, couponCode := code }] }
  else o

/-- Modelled from the spec: setting the customer identity on the active
order (guest checkout details or login, section 4.3 step 2): the customer
is set, every applied coupon code whose promotion would now violate the
per-customer usage limit is silently stripped (no error, no history
entry), and the order is recomputed. -/
def setCustomerForOrder (env : Env) (o : Order) (customer : String) : Order :=
  let kept := o.couponCodes.filter fun c =>
    match env.promotions.find? (fun p => p.couponCode = some c) with
    | some p => !usageExceeded env (some customer) p
    | none => true
  recompute env { o with customer := some customer, couponCodes := kept }

end CouponModel

/-
  Concrete fixtures used to instantiate the theorems below on executable
  inputs.
-/

/-- a stored promotion adjustment on an item (tax-exclusive amount). -/
def samplePromoAdjustment : Adjustment :=
  { adjustmentSource := "Promotion:1", amount := -100,
    description := "promo", type := AdjustmentType.PROMOTION }

/-- a stored tax adjustment on an item. -/
def sampleTaxAdjustment : Adjustment :=
  { adjustmentSource := "TaxRate:1", amount := 120,
    description := "tax 20%", type := AdjustmentType.TAX }

/-- an OrderItem with a tax-exclusive unit price and a 20 percent rate. -/
def sampleExclItem : OrderItem :=
  { unitPrice := 600, unitPriceIncludesTax := false, taxRate := 20,
    pendingAdjustments := [samplePromoAdjustment, sampleTaxAdjustment] }

/-- an OrderLine holding the sample item. -/
def sampleLine : OrderLine := { items := [sampleExclItem] }

/-- an Order holding one line, playing the guest order in the merge claim. -/
def sampleGuestOrder : Order := { lines := [sampleLine] }

/-- an Order with no lines. -/
def emptyOrder : Order := { lines := [] }

/-- an OrderItem storing the tax-exclusive unit price p at rate r with no
adjustments. -/
def exclusiveItem (p r : ℕ) : OrderItem :=
  { unitPrice := (p : ℤ), unitPriceIncludesTax := false, taxRate := (r : ℚ),
    pendingAdjustments := [] }

/-- an OrderItem storing, as a tax-inclusive price, the unitPriceWithTax
of the corresponding tax-exclusive item, with no adjustments. -/
def inclusiveItem (p r : ℕ) : OrderItem :=
  { unitPrice := (exclusiveItem p r).unitPriceWithTax, unitPriceIncludesTax := true,
    taxRate := (r : ℚ), pendingAdjustments := [] }

/-- a registered flat-rate calculator of the server era. -/
def flatCalculator : ShippingCalculator :=
  { code := "flat-rate", calculate := fun _ _ => 500 }

/-- a registered always-eligible checker. -/
def alwaysChecker : ShippingEligibilityChecker :=
  { code := "always", check := fun _ _ => true }

/-- a ShippingMethod whose stored checker and calculator codes have no
registered operation. -/
def methodMissingOps : ShippingMethod :=
  { id := 1, code := "standard", description := "Standard Shipping",
    checker := { code := "gone-checker", args := [] },
    calculator := { code := "gone-calculator", args := [] } }

/-- a ShippingMethod whose stored codes are registered. -/
def methodWithOps : ShippingMethod :=
  { id := 2, code := "flat", description := "Flat Shipping",
    checker := { code := "always", args := [] },
    calculator := { code := "flat-rate", args := [] } }

/-- a PaymentMethodHandler declaring no arguments. -/
def emptyHandler : PaymentMethodHandler := { code := "example-payment", args := [] }

/-- a stored ConfigArg whose name is no longer declared by any handler. -/
def legacyArg : ConfigArg := { name := "legacy", type := ConfigArgType.string, value := "abc" }

namespace CouponModel

/-- a promotion gated on TESTCOUPON giving 100 percent off the order. -/
def promoT : Promotion :=
  { id := 3, name := "Free with test coupon", enabled := true,
    couponCode := some "TESTCOUPON", startsAt := none, endsAt := none,
    perCustomerUsageLimit := none, minimumOrderAmount := none, discountPercent := 100 }

/-- a promotion gated on EXPIRED whose validity window has ended. -/
def promoE : Promotion :=
  { id := 4, name := "Expired coupon", enabled := true,
    couponCode := some "EXPIRED", startsAt := none, endsAt := some (-1),
    perCustomerUsageLimit := none, minimumOrderAmount := none, discountPercent := 100 }

/-- a promotion gated on TESTCOUPON with a per-customer usage limit of one. -/
def promoLimit : Promotion :=
  { id := 9, name := "Free with test coupon", enabled := true,
    couponCode := some "TESTCOUPON", startsAt := none, endsAt := none,
    perCustomerUsageLimit := some 1, minimumOrderAmount := none, discountPercent := 100 }

/-- environment of the coupon-lifecycle scenario of section 8. -/
def envT : Env := { promotions := [promoT, promoE], now := 0, completedOrders := [] }

/-- environment of the usage-limit scenario: the guest customer already
has one completed order that consumed TESTCOUPON. -/
def envU : Env :=
  { promotions := [promoLimit], now := 0,
    completedOrders := [{ customer := "guest@test.com", couponCodes := ["TESTCOUPON"] }] }

/-- an active order with a single 6000 subTotal, nothing applied. -/
def oT : Order :=
  { subTotal := 6000, couponCodes := [], customer := none,
    adjustments := [], history := [] }

/-- the order oT after TESTCOUPON was applied in envT. -/
def oApplied : Order :=
  { subTotal := 6000, couponCodes := ["TESTCOUPON"], customer := none,
    adjustments := [{ adjustmentSource := "Promotion:3", amount := -6000,
                      description := "Free with test coupon",
                      type := Vendure.AdjustmentType.PROMOTION }],
    history := [{ type := HistoryEntryType.ORDER_COUPON_APPLIED, couponCode := "TESTCOUPON" }] }

/-- an anonymous order in envU with TESTCOUPON applied and its discount
attached, before any customer identity is known. -/
def oAnonWithCode : Order :=
  { subTotal := 6000, couponCodes := ["TESTCOUPON"], customer := none,
    adjustments := [{ adjustmentSource := "Promotion:9", amount := -6000,
                      description := "Free with test coupon",
                      type := Vendure.AdjustmentType.PROMOTION }],
    history := [{ type := HistoryEntryType.ORDER_COUPON_APPLIED, couponCode := "TESTCOUPON" }] }

/-- a guest order in envU already carrying the guest identity. -/
def oGuestNew : Order :=
  { subTotal := 6000, couponCodes := [], customer := some "guest@test.com",
    adjustments := [], history := [] }

end CouponModel

end Vendure

/-- Decidable equality of Except results so that the witnesses below can
be settled by evaluation. -/
instance {ε α : Type} [DecidableEq ε] [DecidableEq α] : DecidableEq (Except ε α) := fun x y =>
  match x, y with
  | Except.ok a, Except.ok b =>
    if h : a = b then Decidable.isTrue (congrArg Except.ok h)
    else Decidable.isFalse (fun hc => h (Except.ok.inj hc))
  | Except.error a, Except.error b =>
    if h : a = b then Decidable.isTrue (congrArg Except.error h)
    else Decidable.isFalse (fun hc => h (Except.error.inj hc))
  | Except.ok _, Except.error _ => Decidable.isFalse (fun hc => nomatch hc)
  | Except.error _, Except.ok _ => Decidable.isFalse (fun hc => nomatch hc)

/-
  Helper lemmas shared by the claim theorems below.
-/

namespace Vendure

/-- jround is at most its argument plus one half. -/
theorem jround_le (x : ℚ) : (jround x : ℚ) ≤ x + 1/2 :=
  Int.floor_le (x + 1/2)

/-- jround exceeds its argument minus one half. -/
theorem lt_jround (x : ℚ) : x - 1/2 < (jround x : ℚ) := by
  have h := Int.sub_one_lt_floor (x + 1/2)
  have h2 : x + 1/2 - 1 = x - 1/2 := by ring
  rw [h2] at h
  exact h

/-- evaluation rule for jround used to settle concrete witnesses. -/
theorem jround_eq {x : ℚ} {m : ℤ} (h1 : (m : ℚ) ≤ x + 1/2) (h2 : x + 1/2 < m + 1) :
    jround x = m :=
  Int.floor_eq_iff.mpr ⟨h1, h2⟩

/-- filtering away a string absent from the list keeps the list intact. -/
theorem filter_ne_of_not_mem {l : List String} {c : String} (h : c ∉ l) :
    (l.filter fun x => decide (x ≠ c)) = l :=
  List.filter_eq_self.mpr fun a ha => decide_eq_true fun he => h (he ▸ ha)

/-- filtering away a string appended to a list that did not hold it
recovers the original list. -/
theorem filter_ne_append_self {l : List String} {c : String} (h : c ∉ l) :
    ((l ++ [c]).filter fun x => decide (x ≠ c)) = l := by
  rw [List.filter_append, filter_ne_of_not_mem h]
  simp

/-- variant of the previous lemma for the negated-equality predicate in
the boolean normal form produced by simp. -/
theorem filter_not_eq_of_not_mem {l : List String} {c : String} (h : c ∉ l) :
    (l.filter fun x => !decide (x = c)) = l := by
  refine List.filter_eq_self.mpr fun a ha => ?_
  simp only [Bool.not_eq_true', decide_eq_false_iff_not]
  exact fun hac => h (hac ▸ ha)

/-- a string rejected by the predicate is not contained in the filtered
list. -/
theorem contains_filter_eq_false {l : List String} {c : String} {f : String → Bool}
    (hf : f c = false) : (l.filter f).contains c = false := by
  rw [Bool.eq_false_iff]
  intro hc
  have hm : c ∈ l.filter f := by simpa using hc
  rw [List.mem_filter] at hm
  rw [hf] at hm
  exact Bool.false_ne_true hm.2

end Vendure

open Vendure

/-- C1 [code_bug evidence]: buildConfigArgsArray does not prune stored
args whose names are no longer declared.  With a handler declaring no
arguments and a stored array holding the stale entry legacyArg, the claim
says the returned array contains no entry whose name is no longer among
the declared arguments; the code returns the stale entry untouched,
because the pruning filter on line 218 is applied to the freshly built
default entries (where it can never reject anything) instead of to
existingConfigArgs. -/
theorem buildConfigArgsArray_keeps_stale_arg :
    buildConfigArgsArray emptyHandler [legacyArg] = [legacyArg] ∧
    (emptyHandler.args.find? fun nd => nd.1 = legacyArg.name) = none := by
  constructor
  · rfl
  · rfl

/-- C2 counterexample: applying a ShippingMethod whose stored calculator
code has no registered calculator completes silently with undefined (no
error value and no adjustment), refuting the claim that it throws a fatal
unrecognized-operation error and never silently completes. -/
theorem apply_unregistered_calculator_completes_silently :
    ShippingMethod.apply [] methodMissingOps emptyOrder = Except.ok none := rfl

/-- C2 amended: for every calculator registry, method and order, when the
stored calculator code has no registered calculator, ShippingMethod.apply
returns undefined (no Adjustment) without raising any error. -/
theorem apply_unregistered_calculator_returns_none
    (calculators : List ShippingCalculator) (m : ShippingMethod) (order : Order)
    (h : buildRegistry ShippingCalculator.code calculators m.calculator.code = none) :
    ShippingMethod.apply calculators m order = Except.ok none := by
  unfold ShippingMethod.apply
  rw [h]

/-- C2 witness: the amended theorem applied to an empty registry and the
fixture method with an unregistered calculator code. -/
theorem apply_unregistered_calculator_returns_none_witness :
    ShippingMethod.apply [flatCalculator] methodMissingOps emptyOrder = Except.ok none :=
  apply_unregistered_calculator_returns_none [flatCalculator] methodMissingOps emptyOrder rfl

/-- C9 counterexample: UseExistingStrategy.merge does not handle an absent
existing order: with a present guest order and an absent existing order it
fails on the property access (embedded as none) instead of returning the
guest order lines unchanged. -/
theorem useExistingStrategy_merge_absent_existing_fails :
    UseExistingStrategy.merge (some sampleGuestOrder) none ≠ some sampleGuestOrder.lines := by
  intro h
  exact Option.noConfusion h

/-- C9 amended: UseExistingStrategy.merge is pure and returns the lines of
the existing order whenever the existing order is present, discarding the
guest order (also when the guest order is absent); when the existing order
is absent it fails on the undefined property access rather than returning
the guest order lines. -/
theorem useExistingStrategy_merge_spec (guestOrder : Option Order) (existingOrder : Order) :
    UseExistingStrategy.merge guestOrder (some existingOrder) = some existingOrder.lines ∧
    UseExistingStrategy.merge guestOrder none = none := by
  constructor
  · rfl
  · rfl

/-- C10: ShippingMethod.test reports a method with an unregistered checker
code as ineligible (false) rather than throwing, and with a registered
checker it returns exactly that checker verdict on the order. -/
theorem shippingMethod_test_spec
    (checkers : List ShippingEligibilityChecker) (m : ShippingMethod) (order : Order) :
    (buildRegistry ShippingEligibilityChecker.code checkers m.checker.code = none →
      ShippingMethod.test checkers m order = false) ∧
    (∀ checker,
      buildRegistry ShippingEligibilityChecker.code checkers m.checker.code = some checker →
      ShippingMethod.test checkers m order = checker.check order m.checker.args) := by
  constructor
  · intro h
    unfold ShippingMethod.test
    rw [h]
  · intro checker h
    unfold ShippingMethod.test
    rw [h]

/-- C10 witness: the fixture method with unregistered codes tests false in
a registry holding only the flat calculator era checker, and the method
with registered codes returns the verdict of alwaysChecker, namely true. -/
theorem shippingMethod_test_spec_witness :
    ShippingMethod.test [alwaysChecker] methodMissingOps emptyOrder = false ∧
    ShippingMethod.test [alwaysChecker] methodWithOps emptyOrder = true := by
  constructor
  · exact (shippingMethod_test_spec [alwaysChecker] methodMissingOps emptyOrder).1 rfl
  · exact ((shippingMethod_test_spec [alwaysChecker] methodWithOps emptyOrder).2
      alwaysChecker rfl).trans rfl

/-- C3: for a tax-exclusive OrderItem the adjustments getter returns a
list of the same length in which a stored PROMOTION adjustment at index k
is replaced by the same adjustment with amount rounded to
amount * (100 + taxRate) / 100 while every adjustment of any other type is
returned unchanged; for a tax-inclusive item the getter returns the stored
list exactly; the getter is a pure read that leaves pendingAdjustments
untouched. -/
theorem orderItem_adjustments_getter_spec (i : OrderItem) :
    (i.unitPriceIncludesTax = true → i.adjustments = i.pendingAdjustments) ∧
    (i.unitPriceIncludesTax = false →
      i.adjustments.length = i.pendingAdjustments.length ∧
      ∀ (k : ℕ) (a : Adjustment), i.pendingAdjustments[k]? = some a →
        i.adjustments[k]? = some (
          if a.type = AdjustmentType.PROMOTION then
            { a with amount := jround ((a.amount : ℚ) * ((100 + i.taxRate) / 100)) }
          else a)) := by
  constructor
  · intro h
    simp [OrderItem.adjustments, h]
  · intro h
    constructor
    · simp [OrderItem.adjustments, h]
    · intro k a ha
      simp [OrderItem.adjustments, h, List.getElem?_map, ha]

/-- C3 witness: on the fixture tax-exclusive item with rate 20, the stored
PROMOTION adjustment of amount -100 is read back with amount -120 and the
stored TAX adjustment is read back unchanged. -/
theorem orderItem_adjustments_getter_spec_witness :
    sampleExclItem.adjustments[0]? = some
      { adjustmentSource := "Promotion:1", amount := -120,
        description := "promo", type := AdjustmentType.PROMOTION } ∧
    sampleExclItem.adjustments[1]? = some sampleTaxAdjustment := by
  have h := (orderItem_adjustments_getter_spec sampleExclItem).2 rfl
  constructor
  · have h0 := h.2 0 samplePromoAdjustment rfl
    rw [h0]
    have hj : jround ((samplePromoAdjustment.amount : ℚ) *
        ((100 + sampleExclItem.taxRate) / 100)) = -120 := by
      apply jround_eq
      · norm_num [samplePromoAdjustment, sampleExclItem]
      · norm_num [samplePromoAdjustment, sampleExclItem]
    simp [samplePromoAdjustment, sampleTaxAdjustment, sampleExclItem] at hj ⊢
    simp [hj]
  · have h1 := h.2 1 sampleTaxAdjustment rfl
    rw [h1]
    simp [sampleTaxAdjustment]

/-- C5 counterexample: the default shipping calculator invoked with the
integer arguments rate 1 and taxRate 50 returns priceWithTax 3/2, whose
reduced denominator is 2, so the result is not an integer number of minor
units, refuting the claim that it returns integer price and priceWithTax
values for all integer arguments. -/
theorem defaultShippingCalculator_priceWithTax_not_integral :
    (defaultShippingCalculatorCalculate emptyOrder 1 50).priceWithTax = 3/2 ∧
    (defaultShippingCalculatorCalculate emptyOrder 1 50).priceWithTax.den = 2 := by
  have h : (defaultShippingCalculatorCalculate emptyOrder 1 50).priceWithTax = 3/2 := by
    norm_num [defaultShippingCalculatorCalculate]
  refine ⟨h, ?_⟩
  rw [h]
  norm_num

/-- C5 amended: the default shipping calculator always returns the rate
argument itself as the integer price, but computes priceWithTax as
rate * (100 + taxRate) / 100 with no rounding, so priceWithTax is an
integer exactly when 100 divides rate * (100 + taxRate) and is fractional
otherwise. -/
theorem defaultShippingCalculator_integrality (order : Order) (rate taxRate : ℤ) :
    (defaultShippingCalculatorCalculate order rate taxRate).price = (rate : ℚ) ∧
    ((∃ n : ℤ, (defaultShippingCalculatorCalculate order rate taxRate).priceWithTax = (n : ℚ)) ↔
      (100 : ℤ) ∣ rate * (100 + taxRate)) := by
  constructor
  · rfl
  · constructor
    · rintro ⟨n, hn⟩
      simp only [defaultShippingCalculatorCalculate] at hn
      refine ⟨n, ?_⟩
      have h : (rate : ℚ) * (100 + (taxRate : ℚ)) = 100 * n := by
        field_simp at hn
        linarith
      exact_mod_cast h
    · rintro ⟨m, hm⟩
      refine ⟨m, ?_⟩
      simp only [defaultShippingCalculatorCalculate]
      have h : (rate : ℚ) * (100 + (taxRate : ℚ)) = 100 * m := by exact_mod_cast hm
      field_simp
      linarith

/-- C8: clearAdjustments on an OrderLine keeps the item list length for
both the typed and the untyped call; the item at index k of the result is
the stored item at index k updated only in pendingAdjustments, which is
filtered to the adjustments whose type differs from the given type
(preserving relative order) or emptied when no type is given; every other
field of every item is unchanged and no item is regenerated. -/
theorem orderLine_clearAdjustments_spec (l : OrderLine) (ty : AdjustmentType) :
    ((l.clearAdjustments (some ty)).items.length = l.items.length ∧
     (l.clearAdjustments none).items.length = l.items.length) ∧
    (∀ (k : ℕ) (i : OrderItem), l.items[k]? = some i →
      (l.clearAdjustments (some ty)).items[k]? =
        some { i with pendingAdjustments := i.pendingAdjustments.filter fun a => a.type ≠ ty }) ∧
    (∀ (k : ℕ) (i : OrderItem), l.items[k]? = some i →
      (l.clearAdjustments none).items[k]? = some { i with pendingAdjustments := [] }) := by
  refine ⟨⟨by simp [OrderLine.clearAdjustments], by simp [OrderLine.clearAdjustments]⟩, ?_, ?_⟩
  · intro k i hi
    simp [OrderLine.clearAdjustments, List.getElem?_map, hi, OrderItem.clearAdjustments]
  · intro k i hi
    simp [OrderLine.clearAdjustments, List.getElem?_map, hi, OrderItem.clearAdjustments]

/-- C8 witness: clearing TAX adjustments on the fixture line keeps the
item with only its PROMOTION adjustment, and clearing with no type leaves
the item with no pending adjustments; all other item fields persist. -/
theorem orderLine_clearAdjustments_spec_witness :
    (sampleLine.clearAdjustments (some AdjustmentType.TAX)).items[0]? =
      some { sampleExclItem with pendingAdjustments := [samplePromoAdjustment] } ∧
    (sampleLine.clearAdjustments none).items[0]? =
      some { sampleExclItem with pendingAdjustments := [] } := by
  constructor
  · have h := (orderLine_clearAdjustments_spec sampleLine AdjustmentType.TAX).2.1
      0 sampleExclItem rfl
    rw [h]
    rfl
  · have h := (orderLine_clearAdjustments_spec sampleLine AdjustmentType.TAX).2.2
      0 sampleExclItem rfl
    rw [h]

/-- C4: for a tax-exclusive OrderItem of non-negative integer unit price p
and tax rate r, unitPriceWithTax equals round(p * (100 + r) / 100); and
for the tax-inclusive item that stores that price q, subtracting unitTax
(computed by the getter as round(q - q / ((100 + r) / 100))) from q
recovers the original p within one minor unit. -/
theorem orderItem_tax_round_trip (p r : ℕ) :
    (exclusiveItem p r).unitPriceWithTax = jround ((p : ℚ) * ((100 + (r : ℚ)) / 100)) ∧
    |(exclusiveItem p r).unitPriceWithTax - (inclusiveItem p r).unitTax - (p : ℤ)| ≤ 1 := by
  have hr0 : (0 : ℚ) ≤ (r : ℚ) := Nat.cast_nonneg r
  have hk0 : (0 : ℚ) < 100 + (r : ℚ) := by linarith
  have hq1 : (exclusiveItem p r).unitPriceWithTax =
      jround ((p : ℚ) * ((100 + (r : ℚ)) / 100)) := by
    simp [exclusiveItem, OrderItem.unitPriceWithTax]
  have ht1 : (inclusiveItem p r).unitTax =
      jround (((exclusiveItem p r).unitPriceWithTax : ℚ) -
        ((exclusiveItem p r).unitPriceWithTax : ℚ) * 100 / (100 + (r : ℚ))) := by
    simp [inclusiveItem, OrderItem.unitTax, OrderItem.unitPriceWithPromotions,
      OrderItem.promotionAdjustmentsTotal]
    rw [div_div_eq_mul_div]
  refine ⟨hq1, ?_⟩
  generalize hqz : (exclusiveItem p r).unitPriceWithTax = q at hq1 ht1 ⊢
  generalize htz : (inclusiveItem p r).unitTax = t at ht1 ⊢
  have hqf : (q : ℚ) ≤ (p : ℚ) * ((100 + (r : ℚ)) / 100) + 1/2 := by
    rw [hq1]; exact jround_le _
  have hqg : (p : ℚ) * ((100 + (r : ℚ)) / 100) - 1/2 < (q : ℚ) := by
    rw [hq1]; exact lt_jround _
  have htf : (t : ℚ) ≤ ((q : ℚ) - (q : ℚ) * 100 / (100 + (r : ℚ))) + 1/2 := by
    rw [ht1]; exact jround_le _
  have htg : ((q : ℚ) - (q : ℚ) * 100 / (100 + (r : ℚ))) - 1/2 < (t : ℚ) := by
    rw [ht1]; exact lt_jround _
  have h100q_le : (100 : ℚ) * q ≤ (p : ℚ) * (100 + (r : ℚ)) + 50 := by linarith
  have h100q_ge : (p : ℚ) * (100 + (r : ℚ)) - 50 < (100 : ℚ) * q := by linarith
  have hA_le : (q : ℚ) * 100 / (100 + (r : ℚ)) ≤ (p : ℚ) + 50 / (100 + (r : ℚ)) := by
    rw [div_le_iff₀ hk0, add_mul, div_mul_cancel₀ _ (ne_of_gt hk0)]
    linarith
  have hA_ge : (p : ℚ) - 50 / (100 + (r : ℚ)) < (q : ℚ) * 100 / (100 + (r : ℚ)) := by
    rw [lt_div_iff₀ hk0, sub_mul, div_mul_cancel₀ _ (ne_of_gt hk0)]
    linarith
  have h50 : (50 : ℚ) / (100 + (r : ℚ)) ≤ 1/2 := by
    rw [div_le_iff₀ hk0]; linarith
  have hub : ((q - t - (p : ℤ) : ℤ) : ℚ) < 1 := by push_cast; linarith
  have hlb : (-1 : ℚ) < ((q - t - (p : ℤ) : ℤ) : ℚ) := by push_cast; linarith
  have hub2 : q - t - (p : ℤ) < 1 := by exact_mod_cast hub
  have hlb2 : (-1 : ℤ) < q - t - (p : ℤ) := by exact_mod_cast hlb
  rw [abs_le]
  omega

/-- C6: coupon lifecycle on an active order (settled against the
spec-modelled coupon engine): a code matching no promotion fails with the
not-valid error; a code of a promotion whose validity window has ended
fails with the has-expired error; any accepted application keeps
couponCodes free of duplicates and holding the code; removing a code that
was never applied is a no-op leaving the order (history included)
untouched; and removing a code just applied to a recompute-stable order
restores the adjustments and the total exactly to their pre-discount
values. -/
theorem couponCode_lifecycle (env : CouponModel.Env) (o : CouponModel.Order) (code : String) :
    (env.promotions.find? (fun p => p.couponCode = some code) = none →
      CouponModel.applyCouponCode env o code =
        Except.error (CouponModel.CouponError.notValid code)) ∧
    (∀ (p : CouponModel.Promotion) (e : ℤ),
      env.promotions.find? (fun p => p.couponCode = some code) = some p →
      p.endsAt = some e → e ≤ env.now →
      CouponModel.applyCouponCode env o code =
        Except.error (CouponModel.CouponError.hasExpired code)) ∧
    (∀ o1, CouponModel.applyCouponCode env o code = Except.ok o1 →
      o.couponCodes.Nodup → o1.couponCodes.Nodup ∧ o1.couponCodes.contains code = true) ∧
    (o.couponCodes.contains code = false → CouponModel.removeCouponCode env o code = o) ∧
    (CouponModel.recompute env o = o → o.couponCodes.contains code = false →
      ∀ o1, CouponModel.applyCouponCode env o code = Except.ok o1 →
        (CouponModel.removeCouponCode env o1 code).total = o.total ∧
        (CouponModel.removeCouponCode env o1 code).adjustments = o.adjustments) := by
  refine ⟨?_, ?_, ?_, ?_, ?_⟩
  · intro h
    simp [CouponModel.applyCouponCode, h]
  · intro p e hf he hle
    simp [CouponModel.applyCouponCode, hf, he, hle]
  · intro o1 happ hnd
    rcases hfind : env.promotions.find? (fun p => p.couponCode = some code) with _ | p
    · simp [CouponModel.applyCouponCode, hfind] at happ
    · simp only [CouponModel.applyCouponCode, hfind] at happ
      split_ifs at happ with h1 h2 h3
      · have hinj := Except.ok.inj happ
        subst hinj
        constructor
        · simpa [CouponModel.recompute] using hnd
        · simpa [CouponModel.recompute] using h3
      · have hinj := Except.ok.inj happ
        subst hinj
        have hmem : code ∉ o.couponCodes := by simpa using h3
        constructor
        · simp [CouponModel.recompute, List.nodup_append, hnd, hmem]
        · simp [CouponModel.recompute]
  · intro h
    have hmem : code ∉ o.couponCodes := by simpa using h
    simp [CouponModel.removeCouponCode, h]
    intro hm
    exact absurd hm hmem
  · intro hfix hnc o1 happ
    have hmem : code ∉ o.couponCodes := by simpa using hnc
    have hadj : CouponModel.computeAdjustments env o.subTotal o.couponCodes o.customer =
        o.adjustments := congrArg CouponModel.Order.adjustments hfix
    rcases hfind : env.promotions.find? (fun p => p.couponCode = some code) with _ | p
    · simp [CouponModel.applyCouponCode, hfind] at happ
    · simp only [CouponModel.applyCouponCode, hfind] at happ
      split_ifs at happ with h1 h2 h3
      · rw [hnc] at h3
        simp at h3
      · have hinj := Except.ok.inj happ
        subst hinj
        have hfilter : (o.couponCodes.filter fun x => !decide (x = code)) =
            o.couponCodes := filter_not_eq_of_not_mem hmem
        constructor
        · simp [CouponModel.removeCouponCode, CouponModel.recompute, CouponModel.Order.total,
            hfilter, hadj]
        · simp [CouponModel.removeCouponCode, CouponModel.recompute, hfilter, hadj]

/-- C6 witness: the section 8 scenario in the fixture environment: the
unknown code, the expired code, the happy path reaching total 0 with one
minus-6000 PROMOTION adjustment, deduplicated codes, the no-op removal of
a never-applied code, and the removal of the applied code restoring total
6000 and the empty adjustment list. -/
theorem couponCode_lifecycle_witness :
    CouponModel.applyCouponCode CouponModel.envT CouponModel.oT "bad code" =
      Except.error (CouponModel.CouponError.notValid "bad code") ∧
    CouponModel.applyCouponCode CouponModel.envT CouponModel.oT "EXPIRED" =
      Except.error (CouponModel.CouponError.hasExpired "EXPIRED") ∧
    CouponModel.oApplied.couponCodes.Nodup ∧
    CouponModel.oApplied.couponCodes.contains "TESTCOUPON" = true ∧
    CouponModel.removeCouponCode CouponModel.envT CouponModel.oT "NOT_THERE" = CouponModel.oT ∧
    (CouponModel.removeCouponCode CouponModel.envT CouponModel.oApplied "TESTCOUPON").total = 6000 ∧
    (CouponModel.removeCouponCode CouponModel.envT CouponModel.oApplied "TESTCOUPON").adjustments = [] := by
  have happly : CouponModel.applyCouponCode CouponModel.envT CouponModel.oT "TESTCOUPON" =
      Except.ok CouponModel.oApplied := by decide
  refine ⟨?_, ?_, ?_, ?_, ?_, ?_, ?_⟩
  · exact (couponCode_lifecycle CouponModel.envT CouponModel.oT "bad code").1 (by decide)
  · exact (couponCode_lifecycle CouponModel.envT CouponModel.oT "EXPIRED").2.1
      CouponModel.promoE (-1) (by decide) rfl (by decide)
  · exact ((couponCode_lifecycle CouponModel.envT CouponModel.oT "TESTCOUPON").2.2.1
      CouponModel.oApplied happly (by decide)).1
  · exact ((couponCode_lifecycle CouponModel.envT CouponModel.oT "TESTCOUPON").2.2.1
      CouponModel.oApplied happly (by decide)).2
  · exact (couponCode_lifecycle CouponModel.envT CouponModel.oT "NOT_THERE").2.2.2.1 (by decide)
  · exact (((couponCode_lifecycle CouponModel.envT CouponModel.oT "TESTCOUPON").2.2.2.2
      (by decide) (by decide) CouponModel.oApplied happly).1).trans (by decide)
  · exact (((couponCode_lifecycle CouponModel.envT CouponModel.oT "TESTCOUPON").2.2.2.2
      (by decide) (by decide) CouponModel.oApplied happly).2).trans (by decide)

/-- C7: per-customer usage limit (settled against the spec-modelled coupon
engine): for a promotion gated on a code with perCustomerUsageLimit one
and a customer who already consumed the code in a completed order,
applying the code to an order identified as that customer fails with the
usage-limit error (the order state is returned unchanged since the
operation only reports the error); and setting that customer identity on
an order that already carries the code silently strips the code, and when
the code was the only applied one and no other promotion applies, the
total is restored to the pre-discount subTotal with no adjustments and no
error is raised (the operation is total and returns the order). -/
theorem perCustomerUsageLimit_spec
    (env : CouponModel.Env) (o : CouponModel.Order) (code cust : String)
    (p : CouponModel.Promotion)
    (hfind : env.promotions.find? (fun q => q.couponCode = some code) = some p)
    (hlim : p.perCustomerUsageLimit = some 1)
    (hused : 1 ≤ CouponModel.usageCount env cust code)
    (hval : ∀ e : ℤ, p.endsAt = some e → env.now < e) :
    (o.customer = some cust →
      CouponModel.applyCouponCode env o code =
        Except.error (CouponModel.CouponError.usageLimitExceeded code)) ∧
    ((CouponModel.setCustomerForOrder env o cust).couponCodes.contains code = false) ∧
    (o.couponCodes = [code] →
      CouponModel.computeAdjustments env o.subTotal [] (some cust) = [] →
      (CouponModel.setCustomerForOrder env o cust).total = o.subTotal ∧
      (CouponModel.setCustomerForOrder env o cust).adjustments = []) := by
  have hcc : p.couponCode = some code := by
    have h := List.find?_some hfind
    simpa using h
  have hex : CouponModel.usageExceeded env (some cust) p = true := by
    simp only [CouponModel.usageExceeded, hlim, hcc]
    exact decide_eq_true hused
  have hnotexp : (match p.endsAt with
      | some e => decide (e ≤ env.now)
      | none => false) = false := by
    rcases hE : p.endsAt with _ | e
    · rfl
    · simp only []
      exact decide_eq_false (not_le.mpr (hval e hE))
  refine ⟨?_, ?_, ?_⟩
  · intro hcust
    simp [CouponModel.applyCouponCode, hfind, hnotexp, hcust, hex]
  · show (CouponModel.Order.couponCodes _).contains code = false
    simp only [CouponModel.setCustomerForOrder, CouponModel.recompute]
    apply contains_filter_eq_false
    simp [hfind, hex]
  · intro hcodes hadj0
    constructor
    · show CouponModel.Order.total _ = _
      simp only [CouponModel.setCustomerForOrder, CouponModel.recompute, CouponModel.Order.total,
        hcodes]
      simp [hfind, hex, hadj0]
    · simp only [CouponModel.setCustomerForOrder, CouponModel.recompute, hcodes]
      simp [hfind, hex, hadj0]

/-- C7 witness: in the fixture environment where the guest customer
already has a completed order consuming TESTCOUPON under a limit-one
promotion, a fresh order carrying that guest identity cannot apply the
code again, and adding the guest identity to an anonymous order that
carries the code strips it and restores total 6000 with no adjustments. -/
theorem perCustomerUsageLimit_spec_witness :
    CouponModel.applyCouponCode CouponModel.envU CouponModel.oGuestNew "TESTCOUPON" =
      Except.error (CouponModel.CouponError.usageLimitExceeded "TESTCOUPON") ∧
    (CouponModel.setCustomerForOrder CouponModel.envU CouponModel.oAnonWithCode
      "guest@test.com").couponCodes.contains "TESTCOUPON" = false ∧
    (CouponModel.setCustomerForOrder CouponModel.envU CouponModel.oAnonWithCode
      "guest@test.com").total = 6000 ∧
    (CouponModel.setCustomerForOrder CouponModel.envU CouponModel.oAnonWithCode
      "guest@test.com").adjustments = [] := by
  have h1 := perCustomerUsageLimit_spec CouponModel.envU CouponModel.oGuestNew
    "TESTCOUPON" "guest@test.com" CouponModel.promoLimit (by decide) rfl (by decide)
    (fun e he => nomatch he)
  have h2 := perCustomerUsageLimit_spec CouponModel.envU CouponModel.oAnonWithCode
    "TESTCOUPON" "guest@test.com" CouponModel.promoLimit (by decide) rfl (by decide)
    (fun e he => nomatch he)
  refine ⟨h1.1 rfl, h2.2.1, ?_, ?_⟩
  · exact ((h2.2.2 rfl (by decide)).1).trans (by decide)
  · exact (h2.2.2 rfl (by decide)).2
